import Mathlib

/-!
Shallow embedding of the reactive-cell subsystem (`RBox`) documented by this
repository, together with the pure `Box` wrapper and the deferred `Task`
wrapper. The repository is a documentation site: it contains no executable
implementation, only Markdown reference pages describing the library's
contract. The definitions below are therefore modelled from the spec
(sections 3–4: value/subscriber storage, derivation links, propagation,
detachment) and from the reference pages' documented behavior and examples.

Observers (callback functions in the documented API) are modelled by numeric
labels; every state-changing operation returns, besides the new world, the
ordered list of notifications it delivered, so that claims about which
observers run, with which values, and in which order become statements about
that list. Propagation recursion is bounded by explicit fuel; the default
fuel is ample for every dependency graph the documented API can build (the
graphs are acyclic), so fuel exhaustion never occurs in the scenarios below.
-/

namespace FBox

/-- Modelled from the spec: one notification delivered to one observer.
Records the cell whose subscribers are being notified, the observer's
label, and the delivered (new) value. -/
structure Notif (V : Type) where
  cell : Nat
  obs : Nat
  val : V
  deriving Repr, DecidableEq

/-- Modelled from the spec (§3, data model of `ReactiveCell<T>`): the
per-cell state — current value, the subscriber list in registration order
(subscription key paired with observer label), the next fresh subscription
key, and the `attached` flag governing forward propagation into derived
cells. -/
structure CellData (V : Type) where
  value : V
  subs : List (Nat × Nat)
  nextKey : Nat
  attached : Bool

/-- Modelled from the spec (§4.2, `flatMap`): the result of the chaining
function `fn` — either a freshly created cell holding the given initial
value (`RBox.pack(...)` in the documented examples) or an already-existing
cell, identified by its id. -/
inductive FMRes (V : Type) where
  | fresh (init : V)
  | existing (id : Nat)

/-- Modelled from the spec (§3 `dependents`, §4.2): one internal
parent-to-child derivation link. `mapE src tgt fn` recomputes `tgt` as
`fn newSrcValue`; `applyE fnSrc argSrc tgt` recomputes `tgt` by applying
the function cell's current value to the argument cell's current value;
`bindOuter src tgt fn` re-invokes `fn` on each change of the outer cell
and re-binds `tgt` to the returned inner cell; `bindInner src tgt` is the
current inner-cell subscription of a `flatMap`-derived cell `tgt`. -/
inductive Edge (V : Type) where
  | mapE (src tgt : Nat) (fn : V → V)
  | applyE (fnSrc argSrc tgt : Nat)
  | bindOuter (src tgt : Nat) (fn : V → FMRes V)
  | bindInner (src tgt : Nat)

/-- Modelled from the spec: the whole reactive state — a store of cells
(association list, id to cell data), the internal derivation links in
creation order, and the next fresh cell id. -/
structure World (V : Type) where
  cells : List (Nat × CellData V)
  edges : List (Edge V)
  nextId : Nat

/-- Association-list lookup by numeric key (first match). -/
def assocGet {α : Type} : List (Nat × α) → Nat → Option α
  | [], _ => none
  | (k, a) :: rest, i => if k = i then some a else assocGet rest i

/-- Association-list in-place update of the entry at the given key (first
match); identity when the key is absent. -/
def assocModify {α : Type} : List (Nat × α) → Nat → (α → α) → List (Nat × α)
  | [], _, _ => []
  | (k, a) :: rest, i, f =>
    if k = i then (k, f a) :: rest else (k, a) :: assocModify rest i f

/-- The empty world: no cells, no derivation links. -/
def World.empty {V : Type} : World V := ⟨[], [], 0⟩

/-- Look a cell up by id. -/
def World.lookup {V : Type} (w : World V) (i : Nat) : Option (CellData V) :=
  assocGet w.cells i

/-- Modelled from the spec (§4.1 `getValue`): current value of cell `i`.
Total via the `Inhabited` default on a missing id — an artifact of the
id-based store (in the documented API one always holds a real cell
reference); no scenario below ever reads a missing cell. -/
def World.getVal {V : Type} [Inhabited V] (w : World V) (i : Nat) : V :=
  match w.lookup i with
  | some c => c.value
  | none => default

/-- Apply a function to the data of cell `i`. -/
def World.modifyCell {V : Type} (w : World V) (i : Nat) (f : CellData V → CellData V) :
    World V :=
  { w with cells := assocModify w.cells i f }

/-- Store a new value in cell `i`, leaving subscribers, keys and the
attached flag unchanged. -/
def World.setVal {V : Type} (w : World V) (i : Nat) (v : V) : World V :=
  w.modifyCell i (fun c => { c with value := v })

/-- Allocate a fresh cell holding `v`: no subscribers, no dependents,
attached (spec §4.1 `create`). Returns the new world and the new id. -/
def World.alloc {V : Type} (w : World V) (v : V) : World V × Nat :=
  (⟨w.cells ++ [(w.nextId, ⟨v, [], 0, true⟩)], w.edges, w.nextId + 1⟩, w.nextId)

/-- Whether this derivation link fires when cell `i` changes (its source —
for `applyE`, either source — is `i`). -/
def Edge.srcIs {V : Type} : Edge V → Nat → Bool
  | .mapE s _ _, i => s == i
  | .applyE f a _, i => f == i || a == i
  | .bindOuter s _ _, i => s == i
  | .bindInner s _, i => s == i

/-- Whether this link is the current inner-cell subscription of the
`flatMap`-derived cell `d`. -/
def Edge.isInnerFor {V : Type} : Edge V → Nat → Bool
  | .bindInner _ t, d => t == d
  | _, _ => false

/-- Modelled from the spec (§4.2 `flatMap`, design note on re-binding):
replace the inner-cell subscription of derived cell `tgt` by a subscription
to `inner`, removing the previous one so no stale inner-cell subscription
remains. -/
def World.rebindInner {V : Type} (w : World V) (tgt inner : Nat) : World V :=
  { w with
    edges := (w.edges.filter (fun e => !(e.isInnerFor tgt))) ++ [.bindInner inner tgt] }

/-- A unit of pending propagation work: `prop i v` stores `v` into cell `i`,
notifies its subscribers and fans out over its derivation links; `fire e v`
fires one derivation link whose source just changed to `v`. -/
inductive Job (V : Type) where
  | prop (i : Nat) (v : V)
  | fire (e : Edge V) (v : V)

/-- Modelled from the spec (§4.1 `setValue`, §4.2, §5 ordering guarantee):
depth-first synchronous propagation. `prop i v` stores the new value, then
notifies the subscribers registered at that moment, in registration order,
then — only if the cell is attached (spec §4.4: detachment severs outgoing
propagation) — fires the cell's outgoing derivation links in order, each
recursively propagating into its target before the next link fires, so the
full fan-out completes within the one call. `ap` interprets application of
a function-cell value to an argument-cell value (spec §4.2 `apply`). Fuel
bounds the recursion depth; the documented API builds only acyclic graphs,
for which the default fuel below is ample. -/
def cascade {V : Type} [Inhabited V] (ap : V → V → V) :
    Nat → World V → List (Job V) → World V × List (Notif V)
  | 0, w, _ => (w, [])
  | _ + 1, w, [] => (w, [])
  | fuel + 1, w, .prop i v :: rest =>
    match w.lookup i with
    | none => cascade ap fuel w rest
    | some c =>
      let w1 := w.setVal i v
      let ns := c.subs.map (fun kv => Notif.mk i kv.2 v)
      let out := if c.attached then w1.edges.filter (fun e => e.srcIs i) else []
      let step := cascade ap fuel w1 (out.map (fun e => Job.fire e v) ++ rest)
      (step.1, ns ++ step.2)
  | fuel + 1, w, .fire e v :: rest =>
    match e with
    | .mapE _ tgt fn => cascade ap fuel w (.prop tgt (fn v) :: rest)
    | .applyE f a tgt =>
      cascade ap fuel w (.prop tgt (ap (w.getVal f) (w.getVal a)) :: rest)
    | .bindOuter _ tgt fn =>
      match fn v with
      | .fresh init =>
        let (w1, inner) := w.alloc init
        cascade ap fuel (w1.rebindInner tgt inner) (.prop tgt init :: rest)
      | .existing j =>
        cascade ap fuel (w.rebindInner tgt j) (.prop tgt (w.getVal j) :: rest)
    | .bindInner _ tgt => cascade ap fuel w (.prop tgt v :: rest)

/-- Default propagation fuel: generous for every graph the documented API
can build (written so that it is syntactically a successor). -/
def defaultFuel {V : Type} (w : World V) : Nat :=
  (w.cells.length + w.edges.length + 2) * (w.cells.length + w.edges.length + 2) + 1

namespace RBox

/-- Modelled from the spec (§4.1 `create`, reference page `RBox.pack`):
build a cell holding the initial value, with no subscribers, no dependents,
attached. -/
def pack {V : Type} (w : World V) (v : V) : World V × Nat :=
  w.alloc v

/-- Modelled from the spec (reference page `getValue`): read the current
value of a cell. -/
def getValue {V : Type} [Inhabited V] (w : World V) (i : Nat) : V :=
  w.getVal i

/-- Modelled from the spec (§4.1 `setValue`): compute the new value from
the current one with the updater, store it, notify every currently
registered subscriber in registration order with the new value, and
propagate into dependent cells (transitively) unless the cell is detached.
Returns the new world and the ordered notification trace of the whole
synchronous fan-out. -/
def setValue {V : Type} [Inhabited V] (ap : V → V → V) (w : World V) (i : Nat)
    (g : V → V) : World V × List (Notif V) :=
  cascade ap (defaultFuel w) w [.prop i (g (w.getVal i))]

/-- Modelled from the spec (§4.3 `subscribe`): register an observer under a
fresh key (the cell's key counter) and return the key. No observer is
invoked at registration time — registration delivers no notification (the
operation returns no trace), observers run only on subsequent changes. -/
def subscribe {V : Type} (w : World V) (i : Nat) (obs : Nat) : World V × Nat :=
  match w.lookup i with
  | none => (w, 0)
  | some c =>
    (w.modifyCell i
      (fun c' => { c' with subs := c'.subs ++ [(c'.nextKey, obs)],
                           nextKey := c'.nextKey + 1 }),
     c.nextKey)

/-- Modelled from the spec (§4.3 `unsubscribe`): remove the observer
registered under `key`; a silent no-op when the key is unknown or already
removed. -/
def unsubscribe {V : Type} (w : World V) (i : Nat) (key : Nat) : World V :=
  w.modifyCell i (fun c => { c with subs := c.subs.filter (fun kv => kv.1 != key) })

/-- Modelled from the spec (§4.3 `unsubscribeAll`): remove every directly
registered observer; the internal parent-to-child derivation links are not
touched. -/
def unsubscribeAll {V : Type} (w : World V) (i : Nat) : World V :=
  w.modifyCell i (fun c => { c with subs := [] })

/-- Modelled from the spec (§4.4 `detach`): permanently sever this cell's
outgoing propagation into its dependents. Its own subscriber list is kept
and the cell keeps accepting `setValue` calls. -/
def detach {V : Type} (w : World V) (i : Nat) : World V :=
  w.modifyCell i (fun c => { c with attached := false })

/-- Modelled from the spec (§4.2 `map`): create a derived cell whose
initial value is `fn` of the parent's current value, and register the
internal parent-to-child link that recomputes it on every parent change. -/
def map {V : Type} [Inhabited V] (w : World V) (i : Nat) (fn : V → V) :
    World V × Nat :=
  let (w1, j) := w.alloc (fn (w.getVal i))
  ({ w1 with edges := w1.edges ++ [.mapE i j fn] }, j)

/-- Modelled from the spec (§4.2 `apply`): create a combined cell holding
the function cell's value applied to the argument cell's value, subscribed
to both sources; a change of either source recomputes the combination. -/
def apply {V : Type} [Inhabited V] (ap : V → V → V) (w : World V) (f a : Nat) :
    World V × Nat :=
  let (w1, j) := w.alloc (ap (w.getVal f) (w.getVal a))
  ({ w1 with edges := w1.edges ++ [.applyE f a j] }, j)

/-- Modelled from the spec (§4.2 `flatMap`): create a derived cell
initialized from the value of the inner cell returned by `fn` on the outer
cell's current value, linked to the outer cell (for re-binding on outer
changes) and to the current inner cell (for inner-only changes). -/
def flatMap {V : Type} [Inhabited V] (w : World V) (i : Nat) (fn : V → FMRes V) :
    World V × Nat :=
  match fn (w.getVal i) with
  | .fresh init =>
    let (w1, inner) := w.alloc init
    let (w2, j) := w1.alloc init
    ({ w2 with edges := w2.edges ++ [.bindOuter i j fn, .bindInner inner j] }, j)
  | .existing k =>
    let (w1, j) := w.alloc (w.getVal k)
    ({ w1 with edges := w1.edges ++ [.bindOuter i j fn, .bindInner k j] }, j)

end RBox

/-- The world shape produced by `RBox.pack` followed by `RBox.map`: parent
cell `0` holding `a`, derived cell `1` holding `b`, one map link, no
subscribers. Used to state how the derived cell tracks the parent across
arbitrarily many updates. -/
def mapWorld {V : Type} (fn : V → V) (a b : V) : World V :=
  ⟨[(0, ⟨a, [], 0, true⟩), (1, ⟨b, [], 0, true⟩)], [.mapE 0 1 fn], 2⟩

/-- The world shape produced by `RBox.pack`, `RBox.map`, one `subscribe` on
the parent, then `detach` on the parent: parent cell `0` holding `a` with
one observer `o` and propagation severed, derived cell `1` holding `b`. -/
def detWorld {V : Type} (fn : V → V) (o : Nat) (a b : V) : World V :=
  ⟨[(0, ⟨a, [(0, o)], 1, false⟩), (1, ⟨b, [], 0, true⟩)], [.mapE 0 1 fn], 2⟩

/-- Sequential application of a list of updater functions, the value each
cell update computes (spec §4.1: `newValue = updater(currentValue)`). -/
def applyUpds {V : Type} (gs : List (V → V)) (v : V) : V :=
  gs.foldl (fun acc g => g acc) v

/-- The id-to-value view of a world: every cell's id paired with its
current value (used to state that an operation changes no cell's value). -/
def cellValues {V : Type} (w : World V) : List (Nat × V) :=
  w.cells.map (fun kc => (kc.1, kc.2.value))

/-- A single fresh cell holding `v` (the world after `RBox.pack`). -/
def packWorld {V : Type} (v : V) : World V :=
  (RBox.pack World.empty v).1

/-- Scenario: parent cell `0` holding `v` with derived cell `1` built by
`map fn` (the worked example of the `map` reference section). -/
def mapScenario {V : Type} [Inhabited V] (v : V) (fn : V → V) : World V :=
  (RBox.map (packWorld v) 0 fn).1

/-- Scenario: parent `0`, child `1 = parent.map fn`, grandchild
`2 = child.map fn2`, one observer `o` on the child. -/
def mapChainScenario {V : Type} [Inhabited V] (v : V) (fn fn2 : V → V) (o : Nat) :
    World V :=
  (RBox.subscribe (RBox.map (mapScenario v fn) 1 fn2).1 1 o).1

/-- Scenario: parent `0` with child `1 = parent.map fn` and observer `o` on
the parent, after `parent.detach()`. -/
def detachScenario {V : Type} [Inhabited V] (v : V) (fn : V → V) (o : Nat) :
    World V :=
  RBox.detach (RBox.subscribe (mapScenario v fn) 0 o).1 0

/-- Scenario: chain `0 → 1 → 2` (`1 = 0.map f1`, `2 = 1.map f2`) with an
observer `o2` on the middle cell, after detaching the middle cell. -/
def detachMidScenario {V : Type} [Inhabited V] (v : V) (f1 f2 : V → V) (o2 : Nat) :
    World V :=
  RBox.detach (RBox.subscribe (RBox.map (mapScenario v f1) 1 f2).1 1 o2).1 1

/-- Scenario: outer cell `0` holding `v` with
`2 = outer.flatMap (x => pack (g x))` (inner cell `1` freshly created). -/
def flatMapScenario {V : Type} [Inhabited V] (v : V) (g : V → V) : World V :=
  (RBox.flatMap (packWorld v) 0 (fun x => FMRes.fresh (g x))).1

/-- Scenario: function cell `0` holding `F`, argument cells `1` and `2`
holding `X` and `Y`, `3 = cell0.apply(cell1)` and the curried second step
`4 = cell3.apply(cell2)` (the documented combined-cell example). -/
def applyScenario {V : Type} [Inhabited V] (ap : V → V → V) (F X Y : V) : World V :=
  (RBox.apply ap (RBox.apply ap (RBox.pack (RBox.pack (packWorld F) X).1 Y).1 0 1).1 3 2).1

/-- Scenario: parent `0` with child `1 = parent.map fn`; observer `o4` on
the child, then observers `o1`, `o2`, `o3` on the parent in that order
(receiving keys `0`, `1`, `2`). -/
def subsScenario {V : Type} [Inhabited V] (v : V) (fn : V → V) (o4 o1 o2 o3 : Nat) :
    World V :=
  (RBox.subscribe
    (RBox.subscribe (RBox.subscribe (RBox.subscribe (mapScenario v fn) 1 o4).1 0 o1).1 0 o2).1
    0 o3).1

/-- Scenario: `subsScenario` without the child observer — two observers on
the parent, one on the child — after `unsubscribeAll` on the parent. -/
def unsubAllScenario {V : Type} [Inhabited V] (v : V) (fn : V → V) (o1 o2 o3 : Nat) :
    World V :=
  RBox.unsubscribeAll
    (RBox.subscribe (RBox.subscribe (RBox.subscribe (mapScenario v fn) 0 o1).1 0 o2).1 1 o3).1
    0

/-- Modelled from the spec: a small closed universe of values sufficient
for the documented curried-addition example (`a => b => a + b` applied in
two steps), used to instantiate the generic `apply` scenario. `addF` is the
curried addition function, `addC a` its partial application, `bad` the
result of an ill-typed application (which never occurs in the scenarios). -/
inductive CVal where
  | num (n : Int)
  | addF
  | addC (a : Int)
  | bad
  deriving Repr, DecidableEq

/-- Application of one `CVal` to another, interpreting the curried
addition function of the documented example. -/
def CVal.app : CVal → CVal → CVal
  | .addF, .num a => .addC a
  | .addC a, .num b => .num (a + b)
  | _, _ => .bad

instance : Inhabited CVal := ⟨.bad⟩

/-- Modelled from the spec: `Box` from the reference page — an immutable
container; "operations do not alter the original value but produce new
`Box` instances". -/
structure Box (α : Type) where
  value : α

namespace Box

/-- Modelled from the spec (reference page `Box.pack`): create a new box
containing the provided value. -/
def pack {α : Type} (v : α) : Box α := ⟨v⟩

/-- Modelled from the spec (reference page `getValue`): retrieve the
encapsulated value. -/
def getValue {α : Type} (b : Box α) : α := b.value

/-- Modelled from the spec (reference page `map`): apply a transformation
to the encapsulated value, returning a new box with the result. -/
def map {α β : Type} (b : Box α) (f : α → β) : Box β := pack (f (getValue b))

/-- Modelled from the spec (reference page `apply`): apply a function
wrapped in one box to a value wrapped in another, in a new box. -/
def apply {α β : Type} (bf : Box (α → β)) (ba : Box α) : Box β :=
  pack ((getValue bf) (getValue ba))

/-- Modelled from the spec (reference page `flatMap`): apply a box-returning
function to the encapsulated value and flatten the result. -/
def flatMap {α β : Type} (b : Box α) (f : α → Box β) : Box β := f (getValue b)

end Box

/-- Modelled from the spec: an immediately-resolved promise holding its
result (the only aspect of the platform promise the `Task` reference page's
`pack`/`run` contract depends on). -/
structure Promise (α : Type) where
  value : α
  deriving Repr, DecidableEq

/-- Modelled from the spec: `Promise.resolve` — build a promise resolved
with the given value. -/
def Promise.resolve {α : Type} (v : α) : Promise α := ⟨v⟩

/-- Modelled from the spec: `Task` from the reference page — a deferred
computation wrapping a promise-returning function. -/
structure Task (α : Type) where
  fn : Unit → Promise α

/-- Modelled from the spec (reference page `Task.from`, named `fromFn` here
because `from` is a reserved word in Lean): create a task from a
promise-returning function. -/
def Task.fromFn {α : Type} (f : Unit → Promise α) : Task α := ⟨f⟩

/-- Modelled from the spec (reference page `Task.pack`): create a task that
resolves immediately with the given value. -/
def Task.pack {α : Type} (v : α) : Task α := ⟨fun _ => ⟨v⟩⟩

/-- Stated from the spec's words (reference page: "`Task.pack` is a
shorthand for `Task.from(() => Promise.resolve(value))`"): the
`Task.from`-based construction `Task.pack` is documented to abbreviate. -/
def Task.packViaFrom {α : Type} (v : α) : Task α :=
  Task.fromFn (fun _ => Promise.resolve v)

/-- Modelled from the spec (reference page `run`): execute the computation,
yielding the promise of the result. -/
def Task.run {α : Type} (t : Task α) : Promise α := t.fn ()

set_option maxHeartbeats 4000000

theorem assocGet_modify_self {α : Type} (i : Nat) (f : α → α) (c : α) :
    ∀ cs : List (Nat × α), assocGet cs i = some c →
      assocGet (assocModify cs i f) i = some (f c) := by
  intro cs
  induction cs with
  | nil => intro h; simp [assocGet] at h
  | cons p rest ih =>
    intro h
    obtain ⟨k, a⟩ := p
    by_cases hk : k = i
    · simp [assocGet, assocModify, hk] at h ⊢
      exact congrArg f h
    · simp [assocGet, assocModify, hk] at h ⊢
      exact ih h

theorem assocModify_eq_self {α : Type} (i : Nat) (f : α → α) (c : α) :
    ∀ cs : List (Nat × α), assocGet cs i = some c → f c = c →
      assocModify cs i f = cs := by
  intro cs
  induction cs with
  | nil => intro h _; simp [assocGet] at h
  | cons p rest ih =>
    intro h hf
    obtain ⟨k, a⟩ := p
    by_cases hk : k = i
    · simp [assocGet, assocModify, hk] at h ⊢
      rw [h]; exact hf
    · simp [assocGet, assocModify, hk] at h ⊢
      exact ih h hf

theorem assocModify_map_fst_snd {α β : Type} (i : Nat) (f : α → α) (g : α → β)
    (hf : ∀ a, g (f a) = g a) :
    ∀ cs : List (Nat × α),
      (assocModify cs i f).map (fun kc => (kc.1, g kc.2)) =
        cs.map (fun kc => (kc.1, g kc.2)) := by
  intro cs
  induction cs with
  | nil => rfl
  | cons p rest ih =>
    obtain ⟨k, a⟩ := p
    by_cases hk : k = i
    · simp [assocModify, hk, hf]
    · simp [assocModify, hk, ih]

theorem setValue_mapWorld {V : Type} [Inhabited V] (ap : V → V → V)
    (fn g : V → V) (a b : V) :
    RBox.setValue ap (mapWorld fn a b) 0 g = (mapWorld fn (g a) (fn (g a)), []) := rfl

theorem foldSetValue_mapWorld {V : Type} [Inhabited V] (ap : V → V → V)
    (fn : V → V) (gs : List (V → V)) : ∀ a : V,
    gs.foldl (fun w g => (RBox.setValue ap w 0 g).1) (mapWorld fn a (fn a)) =
      mapWorld fn (applyUpds gs a) (fn (applyUpds gs a)) := by
  induction gs with
  | nil => intro a; rfl
  | cons g gs ih =>
    intro a
    show gs.foldl _ (RBox.setValue ap (mapWorld fn a (fn a)) 0 g).1 = _
    rw [setValue_mapWorld]
    exact ih (g a)

theorem setValue_detWorld {V : Type} [Inhabited V] (ap : V → V → V)
    (fn g : V → V) (o : Nat) (a b : V) :
    RBox.setValue ap (detWorld fn o a b) 0 g =
      (detWorld fn o (g a) b, [⟨0, o, g a⟩]) := rfl

theorem foldSetValue_detWorld {V : Type} [Inhabited V] (ap : V → V → V)
    (fn : V → V) (o : Nat) (b : V) (gs : List (V → V)) : ∀ a : V,
    gs.foldl (fun w g => (RBox.setValue ap w 0 g).1) (detWorld fn o a b) =
      detWorld fn o (applyUpds gs a) b := by
  induction gs with
  | nil => intro a; rfl
  | cons g gs ih =>
    intro a
    show gs.foldl _ (RBox.setValue ap (detWorld fn o a b) 0 g).1 = _
    rw [setValue_detWorld]
    exact ih (g a)

/-- C1: for every initial value, map function and updater, the derived cell
`child = parent.map fn` starts at `fn` of the parent's current value; after
a `parent.setValue g` the child holds `fn` of the parent's new value, the
child's own subscribers are notified with that value and its own dependents
(a grandchild) are updated transitively; the child keeps tracking the
parent across every further sequence of `setValue` calls; and the
documented numeric example (`create 10`, `map (* 2)`, `setValue (+ 5)`)
yields `20` then `30`. -/
theorem rbox_map_derivation_and_propagation {V : Type} [Inhabited V]
    (ap : V → V → V) (v : V) (fn fn2 g : V → V) (o : Nat) :
    RBox.getValue (mapScenario v fn) 1 = fn v ∧
    RBox.getValue (RBox.setValue ap (mapChainScenario v fn fn2 o) 0 g).1 0 = g v ∧
    RBox.getValue (RBox.setValue ap (mapChainScenario v fn fn2 o) 0 g).1 1 = fn (g v) ∧
    RBox.getValue (RBox.setValue ap (mapChainScenario v fn fn2 o) 0 g).1 2 =
      fn2 (fn (g v)) ∧
    (RBox.setValue ap (mapChainScenario v fn fn2 o) 0 g).2 = [⟨1, o, fn (g v)⟩] ∧
    mapScenario v fn = mapWorld fn v (fn v) ∧
    (∀ gs : List (V → V),
      RBox.getValue
        (gs.foldl (fun w g' => (RBox.setValue ap w 0 g').1) (mapWorld fn v (fn v))) 1 =
        fn (applyUpds gs v)) ∧
    RBox.getValue (mapScenario (10 : Int) (fun x => x * 2)) 1 = 20 ∧
    RBox.getValue
      (RBox.setValue (fun a _ => a) (mapScenario (10 : Int) (fun x => x * 2)) 0
        (fun x => x + 5)).1 1 = 30 := by
  refine ⟨rfl, rfl, rfl, rfl, rfl, rfl, fun gs => ?_, by decide, by decide⟩
  rw [foldSetValue_mapWorld]
  rfl

/-- C2: after `parent.detach()`, a previously derived child keeps the value
it held at detachment across every later `parent.setValue` (also when the
update reaches the detached cell from upstream), while the detached cell
itself still accepts `setValue`, its value still changes, and its directly
registered subscribers are still notified; the documented numeric example
(`create 1`, `map (+ 1)`, `detach`, `setValue (const 99)`) leaves the child
at `2` and the parent at `99`. -/
theorem rbox_detach_freezes_children {V : Type} [Inhabited V]
    (ap : V → V → V) (v : V) (fn f1 f2 g : V → V) (o o2 : Nat) :
    detachScenario v fn o = detWorld fn o v (fn v) ∧
    RBox.getValue (RBox.setValue ap (detachScenario v fn o) 0 g).1 0 = g v ∧
    RBox.getValue (RBox.setValue ap (detachScenario v fn o) 0 g).1 1 = fn v ∧
    (RBox.setValue ap (detachScenario v fn o) 0 g).2 = [⟨0, o, g v⟩] ∧
    (∀ gs : List (V → V),
      RBox.getValue
        (gs.foldl (fun w g' => (RBox.setValue ap w 0 g').1) (detWorld fn o v (fn v))) 1 =
          fn v ∧
      RBox.getValue
        (gs.foldl (fun w g' => (RBox.setValue ap w 0 g').1) (detWorld fn o v (fn v))) 0 =
          applyUpds gs v) ∧
    RBox.getValue (RBox.setValue ap (detachMidScenario v f1 f2 o2) 0 g).1 0 = g v ∧
    RBox.getValue (RBox.setValue ap (detachMidScenario v f1 f2 o2) 0 g).1 1 = f1 (g v) ∧
    RBox.getValue (RBox.setValue ap (detachMidScenario v f1 f2 o2) 0 g).1 2 = f2 (f1 v) ∧
    (RBox.setValue ap (detachMidScenario v f1 f2 o2) 0 g).2 = [⟨1, o2, f1 (g v)⟩] ∧
    RBox.getValue (mapScenario (1 : Int) (fun x => x + 1)) 1 = 2 ∧
    RBox.getValue
      (RBox.setValue (fun a _ => a) (RBox.detach (mapScenario (1 : Int) (fun x => x + 1)) 0)
        0 (fun _ => 99)).1 1 = 2 ∧
    RBox.getValue
      (RBox.setValue (fun a _ => a) (RBox.detach (mapScenario (1 : Int) (fun x => x + 1)) 0)
        0 (fun _ => 99)).1 0 = 99 := by
  refine ⟨rfl, rfl, rfl, rfl, fun gs => ?_, rfl, rfl, rfl, rfl, by decide, by decide,
    by decide⟩
  rw [foldSetValue_detWorld]
  exact ⟨rfl, rfl⟩

/-- C3: for `derived = outer.flatMap fn` (with `fn` returning a freshly
created cell, as in the documented example), the derived cell starts at the
value of the inner cell returned on the outer cell's current value; each
outer update re-invokes `fn`, re-binds the derived cell to the newly
returned inner cell and drops the previous inner-cell subscription (so
updating the stale inner cell no longer moves the derived cell), while
updates of the current inner cell alone still propagate; the documented
numeric example (`create 1`, `flatMap (x => create (x * 100))`,
`setValue (const 2)`) yields `100` then `200`. -/
theorem rbox_flatMap_rebinding {V : Type} [Inhabited V]
    (ap : V → V → V) (v : V) (g u h u2 : V → V) :
    RBox.getValue (flatMapScenario v g) 2 = g v ∧
    RBox.getValue (RBox.setValue ap (flatMapScenario v g) 0 u).1 2 = g (u v) ∧
    (RBox.setValue ap (flatMapScenario v g) 0 u).1.edges =
      [.bindOuter 0 2 (fun x => .fresh (g x)), .bindInner 3 2] ∧
    RBox.getValue
      (RBox.setValue ap (RBox.setValue ap (flatMapScenario v g) 0 u).1 1 h).1 2 =
        g (u v) ∧
    RBox.getValue
      (RBox.setValue ap (RBox.setValue ap (flatMapScenario v g) 0 u).1 1 h).1 1 =
        h (g v) ∧
    RBox.getValue
      (RBox.setValue ap (RBox.setValue ap (flatMapScenario v g) 0 u).1 3 h).1 2 =
        h (g (u v)) ∧
    RBox.getValue
      (RBox.setValue ap (RBox.setValue ap (flatMapScenario v g) 0 u).1 0 u2).1 2 =
        g (u2 (u v)) ∧
    (RBox.setValue ap (RBox.setValue ap (flatMapScenario v g) 0 u).1 0 u2).1.edges =
      [.bindOuter 0 2 (fun x => .fresh (g x)), .bindInner 4 2] ∧
    RBox.getValue (flatMapScenario (1 : Int) (fun x => x * 100)) 2 = 100 ∧
    RBox.getValue
      (RBox.setValue (fun a _ => a) (flatMapScenario (1 : Int) (fun x => x * 100)) 0
        (fun _ => 2)).1 2 = 200 :=
  ⟨rfl, rfl, rfl, rfl, rfl, rfl, rfl, rfl, by decide, by decide⟩

/-- C4: the combined cell `fnCell.apply(argCell)` starts at the function
cell's value applied to the argument cell's value; updating either source
recomputes the combination from the possibly updated function and the
possibly updated argument, leaving the other source untouched; the
documented curried example (`create (a => b => a + b)` applied to `10` and
`20`, then updating the first argument to `15`) yields `30` then `35`. -/
theorem rbox_apply_combines_sources {V : Type} [Inhabited V]
    (ap : V → V → V) (F X Y : V) (gx gf : V → V) :
    RBox.getValue (applyScenario ap F X Y) 4 = ap (ap F X) Y ∧
    RBox.getValue (RBox.setValue ap (applyScenario ap F X Y) 1 gx).1 3 = ap F (gx X) ∧
    RBox.getValue (RBox.setValue ap (applyScenario ap F X Y) 1 gx).1 4 =
      ap (ap F (gx X)) Y ∧
    RBox.getValue (RBox.setValue ap (applyScenario ap F X Y) 1 gx).1 2 = Y ∧
    RBox.getValue (RBox.setValue ap (applyScenario ap F X Y) 0 gf).1 4 =
      ap (ap (gf F) X) Y ∧
    RBox.getValue (applyScenario CVal.app .addF (.num 10) (.num 20)) 4 = .num 30 ∧
    RBox.getValue
      (RBox.setValue CVal.app (applyScenario CVal.app .addF (.num 10) (.num 20)) 1
        (fun _ => .num 15)).1 4 = .num 35 ∧
    RBox.getValue
      (RBox.setValue CVal.app (applyScenario CVal.app .addF (.num 10) (.num 20)) 1
        (fun _ => .num 15)).1 2 = .num 20 :=
  ⟨rfl, rfl, rfl, rfl, rfl, by decide, by decide, by decide⟩

/-- C5: one `setValue` call invokes exactly the observers registered at
that moment, each once with the new value, in registration order
(`o1, o2, o3` in that order); unsubscribing `o2` first leaves exactly
`o1, o3`; and the returned trace of the single call already contains the
full fan-out into dependents (the derived cell's observer `o4` fires after
the direct subscribers, with the derived value), so propagation completes
within the call. -/
theorem rbox_setValue_notification_order {V : Type} [Inhabited V]
    (ap : V → V → V) (v : V) (fn g : V → V) (o1 o2 o3 o4 : Nat) :
    (RBox.setValue ap (subsScenario v fn o4 o1 o2 o3) 0 g).2 =
      [⟨0, o1, g v⟩, ⟨0, o2, g v⟩, ⟨0, o3, g v⟩, ⟨1, o4, fn (g v)⟩] ∧
    RBox.getValue (RBox.setValue ap (subsScenario v fn o4 o1 o2 o3) 0 g).1 0 = g v ∧
    RBox.getValue (RBox.setValue ap (subsScenario v fn o4 o1 o2 o3) 0 g).1 1 =
      fn (g v) ∧
    (RBox.setValue ap (RBox.unsubscribe (subsScenario v fn o4 o1 o2 o3) 0 1) 0 g).2 =
      [⟨0, o1, g v⟩, ⟨0, o3, g v⟩, ⟨1, o4, fn (g v)⟩] := ⟨rfl, rfl, rfl, rfl⟩

/-- C6: `unsubscribeAll` removes every directly registered observer of the
cell (a subsequent `setValue` notifies none of them and the subscriber list
is empty) but leaves the derivation links untouched: the derived cell still
receives propagation, still updates its value, and its own observer is
still notified. -/
theorem rbox_unsubscribeAll_keeps_dependents {V : Type} [Inhabited V]
    (ap : V → V → V) (v : V) (fn g : V → V) (o1 o2 o3 : Nat) :
    ((unsubAllScenario v fn o1 o2 o3).lookup 0).map CellData.subs = some [] ∧
    (unsubAllScenario v fn o1 o2 o3).edges = [.mapE 0 1 fn] ∧
    (RBox.setValue ap (unsubAllScenario v fn o1 o2 o3) 0 g).2 =
      [⟨1, o3, fn (g v)⟩] ∧
    RBox.getValue (RBox.setValue ap (unsubAllScenario v fn o1 o2 o3) 0 g).1 1 =
      fn (g v) ∧
    RBox.getValue (RBox.setValue ap (unsubAllScenario v fn o1 o2 o3) 0 g).1 0 = g v :=
  ⟨rfl, rfl, rfl, rfl, rfl⟩

/-- C7: on a cell whose registered keys are all below its key counter
(which holds for every cell the operations build), `subscribe` returns the
counter as a fresh key distinct from every currently registered key,
appends the observer under that key, bumps the counter, and leaves every
cell's value, the cell's attached flag and the derivation links unchanged —
in particular no observer is invoked at registration time (registration
delivers no notification in this model; observers run only through
`setValue` traces). -/
theorem rbox_subscribe_fresh_key {V : Type} (w : World V) (i obs : Nat)
    (c : CellData V) (hc : w.lookup i = some c)
    (hkeys : ∀ kv ∈ c.subs, kv.1 < c.nextKey) :
    (RBox.subscribe w i obs).2 = c.nextKey ∧
    c.subs.all (fun kv => kv.1 != c.nextKey) = true ∧
    (RBox.subscribe w i obs).1.lookup i =
      some ⟨c.value, c.subs ++ [(c.nextKey, obs)], c.nextKey + 1, c.attached⟩ ∧
    cellValues (RBox.subscribe w i obs).1 = cellValues w ∧
    (RBox.subscribe w i obs).1.edges = w.edges := by
  refine ⟨?_, ?_, ?_, ?_, ?_⟩
  · simp only [RBox.subscribe, hc]
  · rw [List.all_eq_true]
    intro kv hkv
    have hlt := hkeys kv hkv
    simp only [bne_iff_ne, ne_eq]
    omega
  · have hc' : assocGet w.cells i = some c := hc
    simp only [RBox.subscribe, World.lookup, World.modifyCell, hc']
    exact assocGet_modify_self i
      (fun c' => { c' with subs := c'.subs ++ [(c'.nextKey, obs)],
                           nextKey := c'.nextKey + 1 })
      c w.cells hc'
  · have hc' : assocGet w.cells i = some c := hc
    simp only [RBox.subscribe, World.lookup, World.modifyCell, cellValues, hc']
    exact assocModify_map_fst_snd i
      (fun c' => { c' with subs := c'.subs ++ [(c'.nextKey, obs)],
                           nextKey := c'.nextKey + 1 })
      CellData.value (fun a => rfl) w.cells
  · have hc' : assocGet w.cells i = some c := hc
    simp only [RBox.subscribe, World.lookup, World.modifyCell, hc']

/-- Witness for C7: in the concrete world holding one cell of value `3`
with observers registered under keys `0` and `1` and key counter `2`,
subscribing observer `7` returns the fresh key `2`, appends the entry, and
changes no value and no link. -/
theorem rbox_subscribe_fresh_key_witness :
    (RBox.subscribe
      (RBox.subscribe (RBox.subscribe (RBox.pack (World.empty : World Int) 3).1 0 5).1 0 6).1
      0 7).2 = 2 ∧
    ([((0 : Nat), (5 : Nat)), (1, 6)] : List (Nat × Nat)).all (fun kv => kv.1 != 2) = true ∧
    (RBox.subscribe
      (RBox.subscribe (RBox.subscribe (RBox.pack (World.empty : World Int) 3).1 0 5).1 0 6).1
      0 7).1.lookup 0 = some ⟨3, [(0, 5), (1, 6), (2, 7)], 3, true⟩ ∧
    cellValues (RBox.subscribe
      (RBox.subscribe (RBox.subscribe (RBox.pack (World.empty : World Int) 3).1 0 5).1 0 6).1
      0 7).1 =
      cellValues
        (RBox.subscribe (RBox.subscribe (RBox.pack (World.empty : World Int) 3).1 0 5).1 0 6).1 ∧
    (RBox.subscribe
      (RBox.subscribe (RBox.subscribe (RBox.pack (World.empty : World Int) 3).1 0 5).1 0 6).1
      0 7).1.edges =
      (RBox.subscribe (RBox.subscribe (RBox.pack (World.empty : World Int) 3).1 0 5).1 0 6).1.edges :=
  rbox_subscribe_fresh_key
    (RBox.subscribe (RBox.subscribe (RBox.pack (World.empty : World Int) 3).1 0 5).1 0 6).1
    0 7 ⟨3, [(0, 5), (1, 6)], 2, true⟩ rfl (by decide)

/-- C8: `unsubscribe` with a key not registered on the cell is a silent
no-op: the world is left entirely unchanged, and in particular a subsequent
`setValue` behaves exactly as it would have without the call, so every
other registered subscriber is still invoked. -/
theorem rbox_unsubscribe_unknown_key_noop {V : Type} [Inhabited V]
    (ap : V → V → V) (w : World V) (i key j : Nat) (g : V → V)
    (c : CellData V) (hc : w.lookup i = some c)
    (hkey : ∀ kv ∈ c.subs, kv.1 ≠ key) :
    RBox.unsubscribe w i key = w ∧
    RBox.setValue ap (RBox.unsubscribe w i key) j g = RBox.setValue ap w j g := by
  have hfilter : c.subs.filter (fun kv => kv.1 != key) = c.subs := by
    apply List.filter_eq_self.mpr
    intro kv hkv
    simpa [bne_iff_ne] using hkey kv hkv
  have h1 : RBox.unsubscribe w i key = w := by
    show w.modifyCell i _ = w
    have hm :
        assocModify w.cells i
          (fun c' => { c' with subs := c'.subs.filter (fun kv => kv.1 != key) }) =
          w.cells := by
      apply assocModify_eq_self i _ c w.cells hc
      rw [hfilter]
    simp only [World.modifyCell, hm]
  exact ⟨h1, by rw [h1]⟩

/-- Witness for C8: in the concrete world holding one cell of value `3`
with observers registered under keys `0` and `1`, unsubscribing the unknown
key `99` changes nothing, and the subsequent `setValue` is unaffected. -/
theorem rbox_unsubscribe_unknown_key_noop_witness :
    RBox.unsubscribe
      (RBox.subscribe (RBox.subscribe (RBox.pack (World.empty : World Int) 3).1 0 5).1 0 6).1
      0 99 =
      (RBox.subscribe (RBox.subscribe (RBox.pack (World.empty : World Int) 3).1 0 5).1 0 6).1 ∧
    RBox.setValue (fun a _ => a)
      (RBox.unsubscribe
        (RBox.subscribe (RBox.subscribe (RBox.pack (World.empty : World Int) 3).1 0 5).1 0 6).1
        0 99)
      0 (fun x => x + 1) =
    RBox.setValue (fun a _ => a)
      (RBox.subscribe (RBox.subscribe (RBox.pack (World.empty : World Int) 3).1 0 5).1 0 6).1
      0 (fun x => x + 1) :=
  rbox_unsubscribe_unknown_key_noop (fun a _ => a)
    (RBox.subscribe (RBox.subscribe (RBox.pack (World.empty : World Int) 3).1 0 5).1 0 6).1
    0 99 0 (fun x => x + 1) ⟨3, [(0, 5), (1, 6)], 2, true⟩ rfl (by decide)

/-- C9: deriving a new box from `b = Box.pack v` with `map` (or `apply`,
`flatMap`) produces a box holding the transformed value while `b` itself
still holds `v`; the documented numeric example (`pack 10`, `map (* 2)`)
gives `20` for the derived box and `10` for the original. -/
theorem box_map_preserves_original {α β : Type} (v : α) (f : α → β)
    (vf : α → β) (fb : α → Box β) :
    ((Box.pack v).map f).getValue = f v ∧
    (Box.pack v).getValue = v ∧
    ((Box.pack vf).apply (Box.pack v)).getValue = vf v ∧
    ((Box.pack v).flatMap fb).getValue = (fb v).getValue ∧
    ((Box.pack (10 : Int)).map (fun x => x * 2)).getValue = 20 ∧
    (Box.pack (10 : Int)).getValue = 10 :=
  ⟨rfl, rfl, rfl, rfl, rfl, rfl⟩

/-- C10: `Task.pack v` is exactly the task built by
`Task.from (() => Promise.resolve v)`, and running either yields the
promise resolved with `v`; the documented example `Task.pack 42` runs
to `42`. -/
theorem task_pack_equiv_from {α : Type} (v : α) :
    Task.pack v = Task.packViaFrom v ∧
    (Task.pack v).run = Promise.resolve v ∧
    (Task.packViaFrom v).run = Promise.resolve v ∧
    (Task.pack (42 : Int)).run = Promise.resolve 42 :=
  ⟨rfl, rfl, rfl, rfl⟩

end FBox
